import Mathlib

/-!
Verification development for the Scapolite-to-Ansible converter
(`converter/scapolite2ansible.py`).

The Python module is shallowly embedded here:

* Python runtime values that can occur in parsed YAML data are modelled by
  the inductive type `Val` (None, bool, int, str, list, dict).  Python
  dictionaries are modelled as association lists in insertion order, which
  is exactly the iteration order of CPython dictionaries; keys are strings,
  which is the shape the data model prescribes for metadata mappings.
* Fallible Python code is modelled with `Except String`: a raised exception
  becomes `.error msg`.  Code that logs is modelled by threading an explicit
  list of `(LogLevel × String)` entries.
* `load_yaml_metadata` takes the YAML parser as an explicit function
  argument, because PyYAML is an external library; a concrete fragment
  model of it (`parseYamlModel`) is provided further down for witnesses.
-/

set_option autoImplicit false

namespace Scap2Ansible

/-- A Python runtime value, as produced by `yaml.safe_load` and manipulated
by the converter.  Dictionaries keep their insertion order, like CPython
dicts; keys are strings (the shape of metadata mappings). -/
inductive Val where
  | none : Val
  | bool (b : Bool) : Val
  | int (n : Int) : Val
  | str (s : String) : Val
  | list (xs : List Val) : Val
  | dict (xs : List (String × Val)) : Val
deriving Repr, Inhabited

/-- Python truthiness (`bool(v)`): `None`, `False`, `0`, `""`, `[]`, and
`` \x7b\x7d `` are falsy, everything else is truthy. -/
def pyTruthy : Val → Bool
  | Val.none => false
  | Val.bool b => b
  | Val.int n => n != 0
  | Val.str s => s != ""
  | Val.list xs => !xs.isEmpty
  | Val.dict xs => !xs.isEmpty

/-- Python `isinstance(v, int)`.  Note that in Python `bool` is a subclass
of `int`, so booleans also satisfy this test. -/
def pyIsInt : Val → Bool
  | Val.int _ => true
  | Val.bool _ => true
  | Val.none => false
  | Val.str _ => false
  | Val.list _ => false
  | Val.dict _ => false

mutual
/-- Python `repr(v)` restricted to the values of `Val`.  String quoting is
modelled as a plain single-quote wrapping (the escaping Python performs for
quotes inside the string is not modelled; no claim depends on it). -/
def pyRepr : Val → String
  | Val.none => "None"
  | Val.bool true => "True"
  | Val.bool false => "False"
  | Val.int n => toString n
  | Val.str s => "\x27" ++ s ++ "\x27"
  | Val.list xs => "[" ++ pyReprSeq xs ++ "]"
  | Val.dict xs => "\x7b" ++ pyReprEntries xs ++ "\x7d"

/-- Comma-separated `repr`s of the elements of a Python list. -/
def pyReprSeq : List Val → String
  | [] => ""
  | [x] => pyRepr x
  | x :: y :: rest => pyRepr x ++ ", " ++ pyReprSeq (y :: rest)

/-- Comma-separated `repr(key): repr(value)` entries of a Python dict. -/
def pyReprEntries : List (String × Val) → String
  | [] => ""
  | [kv] => "\x27" ++ kv.1 ++ "\x27: " ++ pyRepr kv.2
  | kv :: kv2 :: rest =>
      "\x27" ++ kv.1 ++ "\x27: " ++ pyRepr kv.2 ++ ", " ++ pyReprEntries (kv2 :: rest)
end

/-- Python `str(v)` (the default string form used by f-string
interpolation): identity on strings, `repr`-like on containers. -/
def pyStr : Val → String
  | Val.str s => s
  | v => pyRepr v

/-- Lookup in a Python dict (`d[k]` / membership test): the value of the
unique entry with key `k`, if any. -/
def dictGet : List (String × Val) → String → Option Val
  | [], _ => Option.none
  | kv :: xs, k => if kv.1 = k then some kv.2 else dictGet xs k

/-- Python dict assignment `d[k] = v`: replaces the value of an existing
entry in place (keeping its position), otherwise appends a new entry at the
end — exactly CPython insertion-order behaviour. -/
def dictSet : List (String × Val) → String → Val → List (String × Val)
  | [], k, v => [(k, v)]
  | kv :: xs, k, v => if kv.1 = k then (k, v) :: xs else kv :: dictSet xs k v

/-- Severity of a diagnostic emitted through the `logging` module. -/
inductive LogLevel where
  | info : LogLevel
  | warning : LogLevel
  | error : LogLevel
deriving Repr, DecidableEq

/-- One emitted log record. -/
abbrev LogEntry := LogLevel × String

/-- Python `receiver.get(key, default)`: only dictionaries have a `get`
method; on any other receiver the attribute lookup raises
`AttributeError`. -/
def pyGetD (v : Val) (k : String) (dflt : Val) : Except String Val :=
  match v with
  | Val.dict xs => Except.ok ((dictGet xs k).getD dflt)
  | Val.none => Except.error "AttributeError: get"
  | Val.bool _ => Except.error "AttributeError: get"
  | Val.int _ => Except.error "AttributeError: get"
  | Val.str _ => Except.error "AttributeError: get"
  | Val.list _ => Except.error "AttributeError: get"

/-- Python iteration `for x in v`: lists yield their elements, strings
yield their characters (as one-character strings), dicts yield their keys;
`None`, booleans and integers are not iterable and raise `TypeError`. -/
def pyIter (v : Val) : Except String (List Val) :=
  match v with
  | Val.list xs => Except.ok xs
  | Val.str s => Except.ok (s.toList.map (fun c => Val.str (String.singleton c)))
  | Val.dict xs => Except.ok (xs.map (fun kv => Val.str kv.1))
  | Val.none => Except.error "TypeError: object is not iterable"
  | Val.bool _ => Except.error "TypeError: object is not iterable"
  | Val.int _ => Except.error "TypeError: object is not iterable"

/-- One generated registry task, mirroring the task dictionary built by
`convert_rule_to_ansible`: the label under the outer key `name` and the
four fields of the nested `ansible.windows.win_regedit` dictionary
(`path`, `name` — here `regName` —, `data`, `type` — here `ty`). -/
structure RegTask where
  name : String
  path : String
  regName : String
  data : Val
  ty : String
deriving Repr

/-- One generated play: the dictionary
`\x7b hosts: windows, gather_facts: False, tasks: [...] \x7d`. -/
structure Play where
  hosts : String
  gather_facts : Bool
  tasks : List RegTask
deriving Repr

/-- The mutable state of `convert_rule_to_ansible` while looping:
the accumulated `play['tasks']`, the log records emitted so far, and the
`tasks_added` flag. -/
structure ConvSt where
  tasks : List RegTask
  log : List LogEntry
  tasksAdded : Bool
deriving Repr

/-- The initial loop state: empty task list, nothing logged,
`tasks_added = False`. -/
def initSt : ConvSt := { tasks := [], log := [], tasksAdded := false }

/-- Warning logged when an automation has no truthy `registry_key`. -/
def warnNoRegistryKey : String :=
  "No \x27registry_key\x27 found in automation; skipping this automation."

/-- Warning logged when an automation has no truthy `values`. -/
def warnNoValues : String :=
  "No \x27values\x27 found in automation; skipping this automation."

/-- Error logged when a whole document produced no task. -/
def errNoValidAutomation : String :=
  "No valid automation data found in file. No tasks were generated."

/-- The task dictionary built for one `(name, value)` pair of a `values`
mapping: label `Set ... to ...` via f-string interpolation (`pyStr`), path
`HKLM:\` ++ the interpolated registry key, the value name, the raw value,
and type `dword` for Python ints (booleans included) else `string`. -/
def mkRegTask (registry_key : Val) (name : String) (value : Val) : RegTask :=
  { name := "Set " ++ name ++ " to " ++ pyStr value
    path := "HKLM:\\" ++ pyStr registry_key
    regName := name
    data := value
    ty := if pyIsInt value then "dword" else "string" }

/-- `merge_rule_data`: if a `scapolite` key is present, start from a copy
of its value and assign every other top-level `(key, value)` of the input
into it, in iteration order (`rule_data[key] = value`); otherwise return
the input unchanged.  When the `scapolite` value is not a dictionary the
Python code raises: non-copyable values (`None`, bools, ints, strings)
raise `AttributeError` at `.copy()`; a list copies but the first
string-keyed assignment raises `TypeError` (so a list survives only when
`scapolite` is the sole key). -/
def merge_rule_data (scapolite_data : List (String × Val)) : Except String Val :=
  match dictGet scapolite_data "scapolite" with
  | some (Val.dict base) =>
      Except.ok (Val.dict (scapolite_data.foldl
        (fun acc kv => if kv.1 ≠ "scapolite" then dictSet acc kv.1 kv.2 else acc)
        base))
  | some (Val.list l) =>
      if scapolite_data.all (fun kv => kv.1 = "scapolite") then
        Except.ok (Val.list l)
      else Except.error "TypeError: list indices must be integers"
  | some _ => Except.error "AttributeError: copy"
  | Option.none => Except.ok (Val.dict scapolite_data)

/-- The body of the inner `for automation in automations` loop: check
`registry_key` truthiness (warn and skip), check `values` truthiness (warn
and skip), else append one task per `(name, value)` entry of the `values`
dictionary in iteration order and set `tasks_added`.  A non-dict
automation raises `AttributeError` at `.get`; a truthy non-dict `values`
raises `AttributeError` at `.items()`. -/
def processAutomation (st : ConvSt) (automation : Val) : Except String ConvSt :=
  match automation with
  | Val.dict au =>
    let registry_key := (dictGet au "registry_key").getD Val.none
    if pyTruthy registry_key = false then
      Except.ok { st with log := st.log ++ [(LogLevel.warning, warnNoRegistryKey)] }
    else
      let values := (dictGet au "values").getD (Val.dict [])
      if pyTruthy values = false then
        Except.ok { st with log := st.log ++ [(LogLevel.warning, warnNoValues)] }
      else
        match values with
        | Val.dict vs =>
            Except.ok (vs.foldl
              (fun s kv =>
                { s with
                  tasks := s.tasks ++ [mkRegTask registry_key kv.1 kv.2]
                  tasksAdded := true })
              st)
        | _ => Except.error "AttributeError: items"
  | _ => Except.error "AttributeError: get"

/-- A Python `for` loop over an already-materialised list of loop items,
where the body may raise: a raised exception aborts the whole loop and
propagates. -/
def foldE (f : ConvSt → Val → Except String ConvSt) (st : ConvSt) :
    List Val → Except String ConvSt
  | [] => Except.ok st
  | x :: xs =>
    match f st x with
    | Except.ok st2 => foldE f st2 xs
    | Except.error e => Except.error e

/-- The body of the outer `for impl in implementations` loop: read
`automations` (default `[]`), `continue` silently when it is falsy, else
iterate it with the automation body. -/
def processImpl (st : ConvSt) (impl : Val) : Except String ConvSt :=
  match pyGetD impl "automations" (Val.list []) with
  | Except.error e => Except.error e
  | Except.ok automations =>
    if pyTruthy automations = false then Except.ok st
    else
      match pyIter automations with
      | Except.error e => Except.error e
      | Except.ok aus => foldE processAutomation st aus

/-- `convert_rule_to_ansible`: merge the scapolite metadata, read
`implementations` (default `[]`), loop over it, and return the play
`\x7b hosts: windows, gather_facts: False, tasks \x7d` together with the
emitted log records; when no task was added an error record is appended.
Any exception raised along the way propagates (the caller
`convert_directory` catches it). -/
def convert_rule_to_ansible (scapolite_data : List (String × Val)) :
    Except String (Play × List LogEntry) :=
  match merge_rule_data scapolite_data with
  | Except.error e => Except.error e
  | Except.ok rule_data =>
    match pyGetD rule_data "implementations" (Val.list []) with
    | Except.error e => Except.error e
    | Except.ok implementations =>
      match pyIter implementations with
      | Except.error e => Except.error e
      | Except.ok impls =>
        match foldE processImpl initSt impls with
        | Except.error e => Except.error e
        | Except.ok st =>
          Except.ok
            ({ hosts := "windows", gather_facts := false, tasks := st.tasks },
             if st.tasksAdded then st.log
             else st.log ++ [(LogLevel.error, errNoValidAutomation)])

/-- The delimiter marker `---` that `load_yaml_metadata` splits on. -/
def dashes : List Char := ['-', '-', '-']

/-- Python `content.split('---')` on the character list of the document:
scans left to right, each non-overlapping occurrence of `---` ends the
current chunk; `n` occurrences produce `n + 1` chunks. -/
def splitDashes : List Char → List (List Char)
  | [] => [[]]
  | c :: rest =>
    if c = '-' ∧ rest.take 2 = ['-', '-'] then
      [] :: splitDashes (rest.drop 2)
    else
      (c :: (splitDashes rest).headI) :: (splitDashes rest).tail
termination_by s => s.length
decreasing_by
  · simp only [List.length_cons, List.length_drop]; omega
  · simp only [List.length_cons]; omega

/-- The number of (non-overlapping, left-to-right) occurrences of the
delimiter marker `---` in a document, i.e. `len(content.split('---')) - 1`. -/
def countDashes : List Char → Nat
  | [] => 0
  | c :: rest =>
    if c = '-' ∧ rest.take 2 = ['-', '-'] then
      countDashes (rest.drop 2) + 1
    else
      countDashes rest
termination_by s => s.length
decreasing_by
  · simp only [List.length_cons, List.length_drop]; omega
  · simp only [List.length_cons]; omega

/-- The segment of the document that `load_yaml_metadata` hands to the YAML
parser: `parts = content.split('---')`; `parts[1]` when `len(parts) >= 3`,
otherwise the whole document. -/
def selectSegment (content : List Char) : List Char :=
  let parts := splitDashes content
  if h : 3 ≤ parts.length then parts.get ⟨1, by omega⟩ else content

/-- `load_yaml_metadata`, with the external YAML parser (`yaml.safe_load`)
passed in as a function: parse the selected segment; on success return the
parsed value with no diagnostics, on a parse exception log an error naming
the file and return Python `None` (`Val.none`).  Note that a successfully
parsed null document also yields `Val.none`: the two outcomes are
indistinguishable in the returned value. -/
def load_yaml_metadata (parse : List Char → Except String Val)
    (file_path : String) (content : List Char) : Val × List LogEntry :=
  match parse (selectSegment content) with
  | Except.ok data => (data, [])
  | Except.error e =>
      (Val.none,
       [(LogLevel.error, "Error parsing YAML metadata in " ++ file_path ++ ": " ++ e)])

/-- `convert_rule_to_ansible` applied to an arbitrary parsed document, as
`convert_directory` does.  On a dict it is the converter proper.  Tracing
the Python on non-dict inputs: `None`, bools and ints raise `TypeError` at
`'scapolite' in scapolite_data`; a string or list reaches an attribute
lookup that does not exist (`.get`) and raises `AttributeError`. -/
def convertViaVal (scapolite_data : Val) : Except String (Play × List LogEntry) :=
  match scapolite_data with
  | Val.dict d => convert_rule_to_ansible d
  | Val.str _ => Except.error "AttributeError: get"
  | Val.list _ => Except.error "AttributeError: get"
  | Val.none => Except.error "TypeError: argument is not iterable"
  | Val.bool _ => Except.error "TypeError: argument is not iterable"
  | Val.int _ => Except.error "TypeError: argument is not iterable"

/-- Python's `scapolite_data is None` test. -/
def isNoneVal : Val → Bool
  | Val.none => true
  | Val.bool _ => false
  | Val.int _ => false
  | Val.str _ => false
  | Val.list _ => false
  | Val.dict _ => false

/-- The play-collection logic of `convert_directory` over a batch of
already-read files `(filename, content)`: parse each file's metadata, skip
it when the result `is None`, convert it inside `try/except` (a raised
exception only skips the file), and append the play only when
`play['tasks']` is non-empty. -/
def convert_directory_plays (parse : List Char → Except String Val)
    (files : List (String × List Char)) : List Play :=
  files.foldl
    (fun plays file =>
      let data := (load_yaml_metadata parse file.1 file.2).1
      if isNoneVal data then plays
      else
        match convertViaVal data with
        | Except.ok pr => if pr.1.tasks.isEmpty then plays else plays ++ [pr.1]
        | Except.error _ => plays)
    []

/-- A whitespace character for the purposes of the modelled parser. -/
def isWsChar (c : Char) : Bool := c = ' ' || c = '\n' || c = '\t' || c = '\r'

/-- Strip leading and trailing whitespace from a character list. -/
def stripWs (s : List Char) : List Char :=
  ((s.dropWhile isWsChar).reverse.dropWhile isWsChar).reverse

/-- Split a character list into lines at newline characters. -/
def splitLines : List Char → List (List Char)
  | [] => [[]]
  | c :: rest =>
    if c = '\n' then [] :: splitLines rest
    else (c :: (splitLines rest).headI) :: (splitLines rest).tail

/-- Modelled from the spec: scalar resolution of the structured-data
parser — the empty token and `null` resolve to the null value, `true` and
`false` to booleans, digit strings (optionally negated) to integers, and
everything else stays a string. -/
def parseScalarToken (t : List Char) : Val :=
  if t = [] then Val.none
  else if t = "null".toList then Val.none
  else if t = "true".toList then Val.bool true
  else if t = "false".toList then Val.bool false
  else if t.all Char.isDigit then
    Val.int (Int.ofNat (t.foldl (fun n c => n * 10 + (c.toNat - 48)) 0))
  else if t.head? = some '-' ∧ t.tail ≠ [] ∧ t.tail.all Char.isDigit then
    Val.int (-(Int.ofNat (t.tail.foldl (fun n c => n * 10 + (c.toNat - 48)) 0)))
  else Val.str (String.mk t)

/-- Recognize a `key: value` line of a block mapping; the key is the text
before the first colon, the value the scalar after it. -/
def parseLineKV (line : List Char) : Option (String × Val) :=
  let key := line.takeWhile (fun c => c ≠ ':')
  match line.dropWhile (fun c => c ≠ ':') with
  | ':' :: r =>
      if stripWs key ≠ [] ∧ (r = [] ∨ r.head? = some ' ') then
        some (String.mk (stripWs key), parseScalarToken (stripWs r))
      else Option.none
  | _ => Option.none

/-- Recognize a `- item` line of a block sequence. -/
def parseLineItem (line : List Char) : Option Val :=
  match line with
  | ['-'] => some Val.none
  | '-' :: ' ' :: r => some (parseScalarToken (stripWs r))
  | _ => Option.none

/-- Modelled from the spec: the structured-data parser (`yaml.safe_load`)
is an external library and its code is not part of this repository.  Per
the spec it "supports scalars, sequences, and nested mappings" and fails
with a recoverable error on malformed syntax.  This model covers a flat
fragment of the format — the null/boolean/integer/string scalars, one-level
block sequences and block mappings — and maps every document outside the
fragment (e.g. an unclosed flow collection such as a lone `[`) to a parse
error.  Nesting is outside the modelled fragment; no claim depends on it. -/
def parseYamlModel (s : List Char) : Except String Val :=
  let t := stripWs s
  if t = [] then Except.ok Val.none
  else
    let lines := ((splitLines t).map stripWs).filter (fun l => l ≠ [])
    if (lines.map parseLineItem).all Option.isSome ∧ lines ≠ [] then
      Except.ok (Val.list ((lines.map parseLineItem).reduceOption))
    else if (lines.map parseLineKV).all Option.isSome ∧ lines ≠ [] then
      Except.ok (Val.dict ((lines.map parseLineKV).reduceOption))
    else
      match lines with
      | [l] =>
          if l.all (fun c => c ≠ ':' ∧ c ≠ '[' ∧ c ≠ ']' ∧ c ≠ '\x7b' ∧ c ≠ '\x7d') then
            Except.ok (parseScalarToken l)
          else Except.error "could not parse the document"
      | _ => Except.error "could not parse the document"

/-- `true` for the values the spec's invariant allows `extract_metadata`
to produce: Python `None` or a mapping. -/
def isMappingOrNone : Val → Bool
  | Val.none => true
  | Val.dict _ => true
  | Val.bool _ => false
  | Val.int _ => false
  | Val.str _ => false
  | Val.list _ => false

/-- Shape check for one automation entry's `values` field: either falsy
(the entry will be skipped with a warning) or an actual dictionary (the
entry will generate tasks). -/
def goodAuto (au : List (String × Val)) : Bool :=
  match (dictGet au "values").getD (Val.dict []) with
  | Val.dict _ => true
  | Val.none => true
  | Val.bool b => !pyTruthy (Val.bool b)
  | Val.int n => !pyTruthy (Val.int n)
  | Val.str s => !pyTruthy (Val.str s)
  | Val.list l => !pyTruthy (Val.list l)

/-- Shape check for one element of an `automations` sequence: it must be a
dictionary whose `values` field is well-shaped. -/
def goodAutomationEntry : Val → Bool
  | Val.dict ad => goodAuto ad
  | Val.none => false
  | Val.bool _ => false
  | Val.int _ => false
  | Val.str _ => false
  | Val.list _ => false

/-- Shape check for an `automations` value: either falsy (silently
skipped) or a list of well-shaped automation dictionaries. -/
def goodAutomationsVal (av : Val) : Bool :=
  if pyTruthy av = false then true
  else
    match av with
    | Val.list l => l.all goodAutomationEntry
    | Val.none => false
    | Val.bool _ => false
    | Val.int _ => false
    | Val.str _ => false
    | Val.dict _ => false

/-- Shape check for one element of the `implementations` sequence. -/
def goodImplEntry : Val → Bool
  | Val.dict ie => goodAutomationsVal ((dictGet ie "automations").getD (Val.list []))
  | Val.none => false
  | Val.bool _ => false
  | Val.int _ => false
  | Val.str _ => false
  | Val.list _ => false

/-- Shape check for a merged rule record: `implementations` (default `[]`)
must be a list of well-shaped implementation dictionaries. -/
def goodRuleData (r : List (String × Val)) : Bool :=
  match (dictGet r "implementations").getD (Val.list []) with
  | Val.list l => l.all goodImplEntry
  | Val.none => false
  | Val.bool _ => false
  | Val.int _ => false
  | Val.str _ => false
  | Val.dict _ => false

/-- A metadata mapping is well-shaped when the merge step succeeds with a
dictionary whose nested `implementations`/`automations`/`values` structure
has the shapes the converter expects. -/
def wellShaped (d : List (String × Val)) : Bool :=
  match merge_rule_data d with
  | Except.ok v =>
      match v with
      | Val.dict r => goodRuleData r
      | Val.none => false
      | Val.bool _ => false
      | Val.int _ => false
      | Val.str _ => false
      | Val.list _ => false
  | Except.error _ => false

/-! ### Lemmas about the delimiter split -/

lemma splitDashes_ne_nil (s : List Char) : splitDashes s ≠ [] := by
  cases s with
  | nil => simp [splitDashes]
  | cons c rest =>
      simp only [splitDashes]
      split <;> simp

lemma splitDashes_length (s : List Char) :
    (splitDashes s).length = countDashes s + 1 := by
  induction s using splitDashes.induct with
  | case1 => simp [splitDashes, countDashes]
  | case2 c rest h ih =>
      simp only [splitDashes, countDashes]
      rw [if_pos h, if_pos h]
      simp [ih]
  | case3 c rest h ih =>
      simp only [splitDashes, countDashes]
      rw [if_neg h, if_neg h]
      have hne := splitDashes_ne_nil rest
      cases hsp : splitDashes rest with
      | nil => exact absurd hsp hne
      | cons p ps =>
          rw [hsp] at ih
          simp at ih ⊢
          omega

lemma countDashes_cons_zero {c : Char} {a : List Char}
    (h : countDashes (c :: a) = 0) :
    ¬(c = '-' ∧ a.take 2 = ['-', '-']) ∧ countDashes a = 0 := by
  rw [countDashes] at h
  split at h
  · omega
  · exact ⟨by assumption, h⟩

lemma splitDashes_append (a : List Char) (s : List Char)
    (h0 : countDashes a = 0) (h1 : a.getLast? ≠ some '-') :
    splitDashes (a ++ (dashes ++ s)) = a :: splitDashes s := by
  induction a with
  | nil =>
      simp only [List.nil_append, dashes, List.cons_append]
      rw [splitDashes]
      simp [splitDashes]
  | cons c a ih =>
      obtain ⟨hcond, h0'⟩ := countDashes_cons_zero h0
      have h1' : a.getLast? ≠ some '-' := by
        cases a with
        | nil => simp
        | cons b l => rw [List.getLast?_cons_cons] at h1; exact h1
      have hc : ¬(c = '-' ∧ ((a ++ (dashes ++ s)).take 2 = ['-', '-'])) := by
        rintro ⟨hcdash, htake⟩
        cases a with
        | nil =>
            subst hcdash
            simp at h1
        | cons x l =>
            cases l with
            | nil =>
                simp [dashes] at htake
                simp [htake] at h1
            | cons y l2 =>
                exact hcond ⟨hcdash, by simpa using htake⟩
      simp only [List.cons_append]
      rw [splitDashes, if_neg hc]
      rw [ih h0' h1']
      simp

lemma selectSegment_of_few (s : List Char) (h : countDashes s < 2) :
    selectSegment s = s := by
  unfold selectSegment
  have hl := splitDashes_length s
  rw [dif_neg]
  omega

lemma selectSegment_between (a b c : List Char)
    (ha0 : countDashes a = 0) (ha1 : a.getLast? ≠ some '-')
    (hb0 : countDashes b = 0) (hb1 : b.getLast? ≠ some '-') :
    selectSegment (a ++ dashes ++ b ++ dashes ++ c) = b := by
  have hsplit : splitDashes (a ++ dashes ++ b ++ dashes ++ c)
      = a :: b :: splitDashes c := by
    simp only [List.append_assoc]
    rw [splitDashes_append a _ ha0 ha1, splitDashes_append b c hb0 hb1]
  have hlen : 3 ≤ (splitDashes (a ++ dashes ++ b ++ dashes ++ c)).length := by
    rw [hsplit]
    have hne := splitDashes_ne_nil c
    simp only [List.length_cons]
    have : (splitDashes c).length ≠ 0 := by
      intro h
      exact hne (List.length_eq_zero.mp h)
    omega
  unfold selectSegment
  rw [dif_pos hlen]
  have hp : 1 < (splitDashes (a ++ dashes ++ b ++ dashes ++ c)).length := by omega
  have hg : (splitDashes (a ++ dashes ++ b ++ dashes ++ c)).get? 1 = some b := by
    rw [hsplit]; rfl
  rw [List.get?_eq_get hp] at hg
  exact Option.some.inj hg

/-! ### Lemmas about dictionaries -/

lemma dictGet_eq_none {xs : List (String × Val)} {k : String}
    (h : k ∉ xs.map Prod.fst) : dictGet xs k = Option.none := by
  induction xs with
  | nil => rfl
  | cons kv xs ih =>
      simp only [List.map_cons, List.mem_cons] at h
      push_neg at h
      rw [dictGet, if_neg (fun he => h.1 he.symm)]
      exact ih h.2

lemma dictGet_dictSet (xs : List (String × Val)) (k : String) (v : Val) (q : String) :
    dictGet (dictSet xs k v) q = if k = q then some v else dictGet xs q := by
  induction xs with
  | nil => simp [dictGet, dictSet]
  | cons kv xs ih =>
      rw [dictSet]
      by_cases h : kv.1 = k
      · rw [if_pos h]
        by_cases hq : k = q
        · simp [dictGet, hq]
        · have hkv : kv.1 ≠ q := fun he => hq (h.symm.trans he)
          simp [dictGet, hq, hkv]
      · rw [if_neg h]
        by_cases hq : kv.1 = q
        · have hkq : k ≠ q := fun he => h (hq.trans he.symm)
          simp [dictGet, hq, hkq]
        · simp [dictGet, hq, ih]

lemma overlay_lookup (d : List (String × Val)) (hnd : (d.map Prod.fst).Nodup)
    (acc : List (String × Val)) (k : String) :
    dictGet (d.foldl
        (fun acc kv => if kv.1 ≠ "scapolite" then dictSet acc kv.1 kv.2 else acc)
        acc) k
    = if k ≠ "scapolite" ∧ (dictGet d k).isSome then dictGet d k
      else dictGet acc k := by
  induction d generalizing acc with
  | nil => simp [dictGet]
  | cons kv d ih =>
      simp only [List.map_cons, List.nodup_cons] at hnd
      rw [List.foldl_cons, ih hnd.2]
      by_cases hk : kv.1 = k
      · have hdk : dictGet d k = Option.none :=
          dictGet_eq_none (by rw [← hk]; exact hnd.1)
        rw [hdk]
        by_cases hs : k = "scapolite"
        · have : ¬ kv.1 ≠ "scapolite" := by simp [hk, hs]
          rw [if_neg this]
          simp [hs, dictGet, hk]
        · have : kv.1 ≠ "scapolite" := by rw [hk]; exact hs
          rw [if_pos this]
          rw [dictGet_dictSet, if_pos hk]
          simp [hs, dictGet, hk]
      · have hget : dictGet (kv :: d) k = dictGet d k := by
          rw [dictGet, if_neg hk]
        rw [hget]
        have hstep :
            dictGet (if kv.1 ≠ "scapolite" then dictSet acc kv.1 kv.2 else acc) k
            = dictGet acc k := by
          split
          · rw [dictGet_dictSet, if_neg hk]
          · rfl
        rw [hstep]

/-! ### Lemmas about the conversion loops -/

lemma foldE_nil (f : ConvSt → Val → Except String ConvSt) (st : ConvSt) :
    foldE f st [] = Except.ok st := rfl

lemma foldE_cons_ok {f : ConvSt → Val → Except String ConvSt} {st st' : ConvSt}
    {x : Val} (xs : List Val) (h : f st x = Except.ok st') :
    foldE f st (x :: xs) = foldE f st' xs := by
  rw [foldE, h]

lemma foldE_cons_error {f : ConvSt → Val → Except String ConvSt} {st : ConvSt}
    {x : Val} {e : String} (xs : List Val) (h : f st x = Except.error e) :
    foldE f st (x :: xs) = Except.error e := by
  rw [foldE, h]

/-- Closed form of the `values` loop: starting from state `st`, one task is
appended per entry of `vs`, in order, and the flag is set when `vs` is
non-empty. -/
lemma tasksFold (rk : Val) (vs : List (String × Val)) (st : ConvSt) (hne : vs ≠ []) :
    vs.foldl
      (fun s kv =>
        { s with
          tasks := s.tasks ++ [mkRegTask rk kv.1 kv.2]
          tasksAdded := true })
      st
    = { st with
        tasks := st.tasks ++ vs.map (fun kv => mkRegTask rk kv.1 kv.2)
        tasksAdded := true } := by
  induction vs generalizing st with
  | nil => exact absurd rfl hne
  | cons x xs ih =>
      cases xs with
      | nil => simp
      | cons y ys =>
          rw [List.foldl_cons, ih _ (by simp)]
          simp [List.append_assoc]

/-- Closed form of the automation body on a fully well-formed automation:
a truthy `registry_key` and a non-empty `values` dictionary generate one
task per value entry, appended in iteration order. -/
lemma processAutomation_good (st : ConvSt) (au : List (String × Val)) (rk : Val)
    (vs : List (String × Val))
    (hrk : (dictGet au "registry_key").getD Val.none = rk)
    (htr : pyTruthy rk = true)
    (hv : (dictGet au "values").getD (Val.dict []) = Val.dict vs)
    (hne : vs ≠ []) :
    processAutomation st (Val.dict au) =
      Except.ok
        { st with
          tasks := st.tasks ++ vs.map (fun kv => mkRegTask rk kv.1 kv.2)
          tasksAdded := true } := by
  rw [processAutomation]
  simp only [hrk, htr, hv]
  have hvt : pyTruthy (Val.dict vs) = true := by
    simp [pyTruthy, hne]
  rw [if_neg (by simp), if_neg (by simp [hvt])]
  rw [tasksFold rk vs st hne]

/-- The automation body on an automation with a falsy `registry_key`:
warning appended, no task, no exception. -/
lemma processAutomation_noKey (st : ConvSt) (au : List (String × Val))
    (h : pyTruthy ((dictGet au "registry_key").getD Val.none) = false) :
    processAutomation st (Val.dict au) =
      Except.ok { st with log := st.log ++ [(LogLevel.warning, warnNoRegistryKey)] } := by
  rw [processAutomation]
  simp only [h]
  simp

/-- The automation body on an automation with a truthy `registry_key` but
falsy `values`: warning appended, no task, no exception. -/
lemma processAutomation_noValues (st : ConvSt) (au : List (String × Val))
    (h1 : pyTruthy ((dictGet au "registry_key").getD Val.none) = true)
    (h2 : pyTruthy ((dictGet au "values").getD (Val.dict [])) = false) :
    processAutomation st (Val.dict au) =
      Except.ok { st with log := st.log ++ [(LogLevel.warning, warnNoValues)] } := by
  rw [processAutomation]
  simp only [h1, h2]
  simp



/-- Core of the `values` dispatch: a `values` value that is either falsy or
a dictionary leads to a normal return of the automation body. -/
lemma processAutomation_ok_core (st : ConvSt) (au : List (String × Val))
    (h1 : pyTruthy ((dictGet au "registry_key").getD Val.none) = true)
    (v : Val) (hv : (dictGet au "values").getD (Val.dict []) = v)
    (hgood : (∃ vs, v = Val.dict vs) ∨ pyTruthy v = false) :
    ∃ st', processAutomation st (Val.dict au) = Except.ok st' := by
  rcases hgood with ⟨vs, rfl⟩ | hfal
  · by_cases h2 : vs.isEmpty
    · have hfalsy : pyTruthy ((dictGet au "values").getD (Val.dict [])) = false := by
        rw [hv]; simp [pyTruthy, h2]
      exact ⟨_, processAutomation_noValues st au h1 hfalsy⟩
    · have hne : vs ≠ [] := by
        intro he; rw [he] at h2; simp at h2
      exact ⟨_, processAutomation_good st au _ vs rfl h1 hv hne⟩
  · exact ⟨_, processAutomation_noValues st au h1 (by rw [hv]; exact hfal)⟩

/-- A well-shaped automation entry never raises: every branch of the
automation body returns normally. -/
lemma processAutomation_ok_of_good (st : ConvSt) (au : Val)
    (h : goodAutomationEntry au = true) :
    ∃ st', processAutomation st au = Except.ok st' := by
  cases au with
  | dict ad =>
      by_cases h1 : pyTruthy ((dictGet ad "registry_key").getD Val.none) = false
      · exact ⟨_, processAutomation_noKey st ad h1⟩
      · have h1' : pyTruthy ((dictGet ad "registry_key").getD Val.none) = true := by
          simpa using h1
        have hg : goodAuto ad = true := by simpa [goodAutomationEntry] using h
        rw [goodAuto] at hg
        refine processAutomation_ok_core st ad h1' _ rfl ?_
        cases hv : (dictGet ad "values").getD (Val.dict []) with
        | dict vs => exact Or.inl ⟨vs, rfl⟩
        | none => exact Or.inr rfl
        | bool b => rw [hv] at hg; exact Or.inr (by simpa using hg)
        | int n => rw [hv] at hg; exact Or.inr (by simpa using hg)
        | str s => rw [hv] at hg; exact Or.inr (by simpa using hg)
        | list xs => rw [hv] at hg; exact Or.inr (by simpa using hg)
  | none => simp [goodAutomationEntry] at h
  | bool b => simp [goodAutomationEntry] at h
  | int n => simp [goodAutomationEntry] at h
  | str s => simp [goodAutomationEntry] at h
  | list xs => simp [goodAutomationEntry] at h

/-- A loop whose body returns normally on every element returns normally. -/
lemma foldE_ok_of_all (f : ConvSt → Val → Except String ConvSt) (P : Val → Bool)
    (hf : ∀ st a, P a = true → ∃ st', f st a = Except.ok st')
    (l : List Val) (hl : l.all P = true) :
    ∀ st, ∃ st', foldE f st l = Except.ok st' := by
  induction l with
  | nil => exact fun st => ⟨st, rfl⟩
  | cons a l ih =>
      intro st
      simp only [List.all_cons, Bool.and_eq_true] at hl
      obtain ⟨st1, h1⟩ := hf st a hl.1
      rw [foldE_cons_ok l h1]
      exact ih hl.2 st1

/-- Core of the `automations` dispatch: a value that is either falsy or a
list of well-shaped automation entries leads to a normal return. -/
lemma processImpl_ok_core (st : ConvSt) (av : Val)
    (hg : goodAutomationsVal av = true) :
    ∃ st', (if pyTruthy av = false then Except.ok st
            else
              match pyIter av with
              | Except.error e => Except.error e
              | Except.ok aus => foldE processAutomation st aus)
           = Except.ok st' := by
  by_cases ht : pyTruthy av = false
  · rw [if_pos ht]; exact ⟨st, rfl⟩
  · rw [if_neg ht]
    rw [goodAutomationsVal.eq_def, if_neg ht] at hg
    cases av with
    | list l =>
        simp only [pyIter]
        exact foldE_ok_of_all processAutomation goodAutomationEntry
          (fun st a ha => processAutomation_ok_of_good st a ha) l hg st
    | none => simp at hg
    | bool b => simp at hg
    | int n => simp at hg
    | str s => simp at hg
    | dict xs => simp at hg

/-- A well-shaped implementation entry never raises. -/
lemma processImpl_ok_of_good (st : ConvSt) (impl : Val)
    (h : goodImplEntry impl = true) :
    ∃ st', processImpl st impl = Except.ok st' := by
  cases impl with
  | dict ie =>
      rw [processImpl]
      simp only [pyGetD]
      exact processImpl_ok_core st _ (by simpa [goodImplEntry] using h)
  | none => simp [goodImplEntry] at h
  | bool b => simp [goodImplEntry] at h
  | int n => simp [goodImplEntry] at h
  | str s => simp [goodImplEntry] at h
  | list xs => simp [goodImplEntry] at h

/-- Whatever happens inside `convert_rule_to_ansible`, a play it returns
normally always targets host group `windows` with fact-gathering off. -/
lemma convert_ok_play_shape (d : List (String × Val)) (p : Play) (lg : List LogEntry)
    (h : convert_rule_to_ansible d = Except.ok (p, lg)) :
    p.hosts = "windows" ∧ p.gather_facts = false := by
  rw [convert_rule_to_ansible] at h
  split at h
  · exact absurd h (by simp)
  · split at h
    · exact absurd h (by simp)
    · split at h
      · exact absurd h (by simp)
      · split at h
        · exact absurd h (by simp)
        · rw [Except.ok.injEq, Prod.mk.injEq] at h
          rw [← h.1]
          exact ⟨rfl, rfl⟩

/-- Every play accumulated by the `convert_directory` fold has a non-empty
task list, provided every play already in the accumulator does. -/
lemma convert_directory_plays_aux (parse : List Char → Except String Val) :
    ∀ (files : List (String × List Char)) (acc : List Play),
      (∀ q ∈ acc, q.tasks ≠ []) →
      ∀ p ∈ files.foldl
          (fun plays file =>
            let data := (load_yaml_metadata parse file.1 file.2).1
            if isNoneVal data then plays
            else
              match convertViaVal data with
              | Except.ok pr => if pr.1.tasks.isEmpty then plays else plays ++ [pr.1]
              | Except.error _ => plays)
          acc,
        p.tasks ≠ [] := by
  intro files
  induction files with
  | nil => intro acc hacc p hp; exact hacc p hp
  | cons f fs ih =>
      intro acc hacc p hp
      rw [List.foldl_cons] at hp
      refine ih _ ?_ p hp
      intro q hq
      simp only at hq
      split at hq
      · exact hacc q hq
      · split at hq
        · rename_i pr _
          split at hq
          · exact hacc q hq
          · rename_i hempty
            rcases List.mem_append.mp hq with hmem | hmem
            · exact hacc q hmem
            · have : q = pr.1 := List.mem_singleton.mp hmem
              rw [this]
              intro hnil
              rw [hnil] at hempty
              simp at hempty
        · exact hacc q hq

/-! ### Claim theorems -/

/-- C1: for an automation entry with a present, non-empty registry path and
a present, non-empty `values` mapping, exactly one action is synthesized
per `(value-name, value)` pair in the mapping's iteration order; the label
is `Set name to value` with the value's default string form, the path is
the fixed root `HKLM:\` followed by the registry path, the action carries
the value name and the value payload, and the type tag is `dword` for
integers (Python `isinstance(value, int)`) else `string`; the actions are
appended to the play's action sequence in this order. -/
theorem c1_values_actions (st : ConvSt) (au : List (String × Val)) (rk : String)
    (vs : List (String × Val))
    (h1 : dictGet au "registry_key" = some (Val.str rk)) (h2 : rk ≠ "")
    (h3 : dictGet au "values" = some (Val.dict vs)) (h4 : vs ≠ []) :
    processAutomation st (Val.dict au) =
      Except.ok
        { st with
          tasks := st.tasks ++ vs.map (fun kv =>
            { name := "Set " ++ kv.1 ++ " to " ++ pyStr kv.2
              path := "HKLM:\\" ++ rk
              regName := kv.1
              data := kv.2
              ty := if pyIsInt kv.2 then "dword" else "string" })
          tasksAdded := true } := by
  have hgood := processAutomation_good st au (Val.str rk) vs
    (by rw [h1]; rfl)
    (by simp [pyTruthy, h2])
    (by rw [h3]; rfl)
    h4
  rw [hgood]
  simp [mkRegTask, pyStr]

/-- Witness for C1 at the spec's own example: registry path `Foo\Bar` with
values `Enabled: 1` (a `dword`) and `Mode: "strict"` (a `string`). -/
theorem c1_witness :
    processAutomation initSt
        (Val.dict [("registry_key", Val.str "Foo\\Bar"),
                   ("values", Val.dict [("Enabled", Val.int 1),
                                        ("Mode", Val.str "strict")])]) =
      Except.ok
        { tasks := [{ name := "Set Enabled to 1", path := "HKLM:\\Foo\\Bar",
                      regName := "Enabled", data := Val.int 1, ty := "dword" },
                    { name := "Set Mode to strict", path := "HKLM:\\Foo\\Bar",
                      regName := "Mode", data := Val.str "strict", ty := "string" }]
          log := []
          tasksAdded := true } := by
  have h := c1_values_actions initSt
    [("registry_key", Val.str "Foo\\Bar"),
     ("values", Val.dict [("Enabled", Val.int 1), ("Mode", Val.str "strict")])]
    "Foo\\Bar" [("Enabled", Val.int 1), ("Mode", Val.str "strict")]
    rfl (by decide) rfl (by simp)
  rw [h]
  rfl

/-- C2: the merge step returns a mapping with no `scapolite` key unchanged
(idempotence), and on a mapping with a `scapolite` sub-mapping it overlays
every sibling key on a copy of that sub-mapping, the sibling winning on
collision, with no deep merge; in particular
`merge(scapolite: (a:1, b:2), b:3) = (a:1, b:3)`. -/
theorem c2_merge_semantics :
    (∀ d : List (String × Val), dictGet d "scapolite" = Option.none →
        merge_rule_data d = Except.ok (Val.dict d)) ∧
    (∀ (d base : List (String × Val)), (d.map Prod.fst).Nodup →
        dictGet d "scapolite" = some (Val.dict base) →
        ∃ r, merge_rule_data d = Except.ok (Val.dict r) ∧
          ∀ k, k ≠ "scapolite" →
            dictGet r k =
              if (dictGet d k).isSome then dictGet d k else dictGet base k) ∧
    merge_rule_data [("scapolite", Val.dict [("a", Val.int 1), ("b", Val.int 2)]),
        ("b", Val.int 3)]
      = Except.ok (Val.dict [("a", Val.int 1), ("b", Val.int 3)]) := by
  refine ⟨?_, ?_, ?_⟩
  · intro d h
    rw [merge_rule_data, h]
  · intro d base hnd h
    refine ⟨_, by rw [merge_rule_data, h], ?_⟩
    intro k hk
    rw [overlay_lookup d hnd base k]
    by_cases hs : (dictGet d k).isSome <;> simp [hk, hs]
  · rfl

/-- Witness for C2: idempotence at a scapolite-free mapping, and the
overlay characterization at the spec's precedence example. -/
theorem c2_witness :
    merge_rule_data [("x", Val.int 1)] = Except.ok (Val.dict [("x", Val.int 1)]) ∧
    ∃ r, merge_rule_data [("scapolite", Val.dict [("a", Val.int 1), ("b", Val.int 2)]),
            ("b", Val.int 3)]
          = Except.ok (Val.dict r) ∧
        ∀ k, k ≠ "scapolite" →
          dictGet r k =
            if (dictGet [("scapolite", Val.dict [("a", Val.int 1), ("b", Val.int 2)]),
                  ("b", Val.int 3)] k).isSome
            then dictGet [("scapolite", Val.dict [("a", Val.int 1), ("b", Val.int 2)]),
                  ("b", Val.int 3)] k
            else dictGet [("a", Val.int 1), ("b", Val.int 2)] k :=
  ⟨c2_merge_semantics.1 [("x", Val.int 1)] rfl,
   c2_merge_semantics.2.1
     [("scapolite", Val.dict [("a", Val.int 1), ("b", Val.int 2)]), ("b", Val.int 3)]
     [("a", Val.int 1), ("b", Val.int 2)]
     (by simp) rfl⟩

/-- C4: an automation entry with an absent or falsy `registry_key`, or
with a truthy `registry_key` but an absent or falsy `values`, emits zero
actions and exactly one logged warning, raises no exception, and lets both
surrounding loops continue with the remaining entries. -/
theorem c4_missing_field_handling :
    (∀ (st : ConvSt) (au : List (String × Val)),
        pyTruthy ((dictGet au "registry_key").getD Val.none) = false →
        processAutomation st (Val.dict au) =
          Except.ok { st with log := st.log ++ [(LogLevel.warning, warnNoRegistryKey)] }) ∧
    (∀ (st : ConvSt) (au : List (String × Val)),
        pyTruthy ((dictGet au "registry_key").getD Val.none) = true →
        pyTruthy ((dictGet au "values").getD (Val.dict [])) = false →
        processAutomation st (Val.dict au) =
          Except.ok { st with log := st.log ++ [(LogLevel.warning, warnNoValues)] }) ∧
    (∀ (st st' : ConvSt) (au : Val) (rest : List Val),
        processAutomation st au = Except.ok st' →
        foldE processAutomation st (au :: rest) = foldE processAutomation st' rest) ∧
    (∀ (st st' : ConvSt) (impl : Val) (rest : List Val),
        processImpl st impl = Except.ok st' →
        foldE processImpl st (impl :: rest) = foldE processImpl st' rest) :=
  ⟨fun st au h => processAutomation_noKey st au h,
   fun st au h1 h2 => processAutomation_noValues st au h1 h2,
   fun _ _ _ rest h => foldE_cons_ok rest h,
   fun _ _ _ rest h => foldE_cons_ok rest h⟩

/-- Witness for C4: an automation with no `registry_key` at all, and one
with a registry path but no `values`, each produce exactly the warning and
no task. -/
theorem c4_witness :
    processAutomation initSt (Val.dict []) =
      Except.ok { tasks := [], log := [(LogLevel.warning, warnNoRegistryKey)],
                  tasksAdded := false } ∧
    processAutomation initSt (Val.dict [("registry_key", Val.str "K")]) =
      Except.ok { tasks := [], log := [(LogLevel.warning, warnNoValues)],
                  tasksAdded := false } :=
  ⟨c4_missing_field_handling.1 initSt [] rfl,
   c4_missing_field_handling.2.1 initSt [("registry_key", Val.str "K")] rfl rfl⟩

/-- C3: when the delimiter marker occurs at least twice, each occurrence on
its own line, exactly the text strictly between the first two occurrences
is selected as the metadata segment; with fewer than two occurrences the
whole document is selected. -/
theorem c3_metadata_segment :
    (∀ (a b c : List Char),
        countDashes a = 0 → (a = [] ∨ a.getLast? = some '\n') →
        countDashes b = 0 → b.head? = some '\n' → b.getLast? = some '\n' →
        (c = [] ∨ c.head? = some '\n') →
        selectSegment (a ++ dashes ++ b ++ dashes ++ c) = b) ∧
    (∀ s : List Char, countDashes s < 2 → selectSegment s = s) := by
  constructor
  · intro a b c ha0 ha1 hb0 _hbh hb1 _hc
    apply selectSegment_between a b c ha0 ?_ hb0 ?_
    · rcases ha1 with rfl | h
      · simp
      · rw [h]; decide
    · rw [hb1]; decide
  · exact selectSegment_of_few

/-- Witness for C3: a delimited document whose middle segment is selected,
and an undelimited document selected whole. -/
theorem c3_witness :
    selectSegment ("head\n".toList ++ dashes ++ "\nkey: value\n".toList
        ++ dashes ++ "\nbody".toList) = "\nkey: value\n".toList ∧
    selectSegment "no delimiter here".toList = "no delimiter here".toList :=
  ⟨c3_metadata_segment.1 "head\n".toList "\nkey: value\n".toList "\nbody".toList
      (by simp +decide [countDashes]) (Or.inr (by decide))
      (by simp +decide [countDashes]) (by decide) (by decide)
      (Or.inr (by decide)),
   c3_metadata_segment.2 "no delimiter here".toList
      (by simp +decide [countDashes])⟩

/-- C5 counterexample: on the metadata mapping `(implementations: 1)` —
a perfectly possible YAML document `implementations: 1` — the mapper
raises `TypeError` (Python iterates an `int`), so it does not return a
play; the exception is caught one level up by the batch driver. -/
theorem c5_counterexample :
    convert_rule_to_ansible [("implementations", Val.int 1)] =
      Except.error "TypeError: object is not iterable" := rfl

/-- C5 (amended): on every well-shaped metadata mapping — `scapolite`
value a mapping when present, `implementations` a sequence of mappings,
each truthy `automations` a sequence of mappings, each truthy `values` a
mapping — the mapper returns a play normally (possibly with an empty
action sequence); on other shapes it can raise, and the batch driver
catches the exception. -/
theorem c5_wellshaped_total (d : List (String × Val)) (h : wellShaped d = true) :
    ∃ p lg, convert_rule_to_ansible d = Except.ok (p, lg) := by
  rw [wellShaped.eq_def] at h
  cases hm : merge_rule_data d with
  | error e => rw [hm] at h; simp at h
  | ok v =>
      rw [hm] at h
      cases v with
      | dict r =>
          have h' : goodRuleData r = true := h
          rw [goodRuleData.eq_def] at h'
          cases hi : (dictGet r "implementations").getD (Val.list []) with
          | list l =>
              rw [hi] at h'
              simp only at h'
              obtain ⟨st, hst⟩ := foldE_ok_of_all processImpl goodImplEntry
                (fun st a ha => processImpl_ok_of_good st a ha) l h' initSt
              refine ⟨{ hosts := "windows", gather_facts := false, tasks := st.tasks },
                      if st.tasksAdded then st.log
                      else st.log ++ [(LogLevel.error, errNoValidAutomation)], ?_⟩
              rw [convert_rule_to_ansible, hm]
              simp only [pyGetD]
              rw [hi]
              simp only [pyIter]
              rw [hst]
          | none => rw [hi] at h'; simp at h'
          | bool b => rw [hi] at h'; simp at h'
          | int n => rw [hi] at h'; simp at h'
          | str s => rw [hi] at h'; simp at h'
          | dict xs => rw [hi] at h'; simp at h'
      | none => simp at h
      | bool b => simp at h
      | int n => simp at h
      | str s => simp at h
      | list xs => simp at h

/-- Witness for C5 at a fully-shaped document with one registry automation. -/
theorem c5_witness :
    wellShaped [("implementations", Val.list [Val.dict [("automations",
        Val.list [Val.dict [("registry_key", Val.str "K"),
                            ("values", Val.dict [("N", Val.int 1)])]])]])] = true ∧
    ∃ p lg, convert_rule_to_ansible
        [("implementations", Val.list [Val.dict [("automations",
            Val.list [Val.dict [("registry_key", Val.str "K"),
                                ("values", Val.dict [("N", Val.int 1)])]])]])] =
        Except.ok (p, lg) :=
  ⟨rfl,
   c5_wellshaped_total
     [("implementations", Val.list [Val.dict [("automations",
         Val.list [Val.dict [("registry_key", Val.str "K"),
                             ("values", Val.dict [("N", Val.int 1)])]])]])]
     rfl⟩

/-- C6 counterexample: with `implementations` present but not a sequence
(the int `2`), the mapper does not treat it as empty — it raises
`TypeError` instead of returning an empty play. -/
theorem c6_counterexample :
    convert_rule_to_ansible [("implementations", Val.int 2)] =
      Except.error "TypeError: object is not iterable" := rfl

/-- C6 (amended): when `implementations` is absent the mapper treats it as
the empty sequence and returns a play with an empty action sequence (and
the `no valid automation data` error log); a present non-sequence value is
not defaulted — it raises (see the counterexample).  Implementation
entries whose `automations` is absent or falsy are skipped silently, with
no log record and no error. -/
theorem c6_default_handling :
    (∀ d : List (String × Val),
        dictGet d "scapolite" = Option.none →
        dictGet d "implementations" = Option.none →
        convert_rule_to_ansible d =
          Except.ok ({ hosts := "windows", gather_facts := false, tasks := [] },
                     [(LogLevel.error, errNoValidAutomation)])) ∧
    (∀ (st : ConvSt) (ie : List (String × Val)),
        pyTruthy ((dictGet ie "automations").getD (Val.list [])) = false →
        processImpl st (Val.dict ie) = Except.ok st) := by
  constructor
  · intro d h1 h2
    rw [convert_rule_to_ansible, merge_rule_data, h1]
    simp only [pyGetD]
    rw [h2]
    rfl
  · intro st ie h
    rw [processImpl]
    simp only [pyGetD]
    rw [if_pos h]

/-- Witness for C6: a rule with only a title yields the empty play plus
error log, and an implementation entry without `automations` is skipped
without any log. -/
theorem c6_witness :
    convert_rule_to_ansible [("title", Val.str "t")] =
      Except.ok ({ hosts := "windows", gather_facts := false, tasks := [] },
                 [(LogLevel.error, errNoValidAutomation)]) ∧
    processImpl initSt (Val.dict [("name", Val.str "x")]) = Except.ok initSt :=
  ⟨c6_default_handling.1 [("title", Val.str "t")] rfl rfl,
   c6_default_handling.2 initSt [("name", Val.str "x")] rfl⟩

/-- C7 counterexample: the document `5` parses to the bare integer scalar
`5`, which the extractor returns as-is — neither `None` nor a mapping. -/
theorem c7_counterexample :
    isMappingOrNone (load_yaml_metadata parseYamlModel "scalar.yml" "5".toList).1
      = false := by
  rw [load_yaml_metadata,
      selectSegment_of_few "5".toList (by simp +decide [countDashes])]
  rfl

/-- C7 (amended): the extractor passes the parser's result through
unchanged, so its result is a mapping or `None` exactly when the parsed
segment is (which a parse failure also guarantees); a document that parses
to a bare scalar or sequence is returned as that scalar or sequence. -/
theorem c7_mapping_or_none (parse : List Char → Except String Val) (path : String)
    (content : List Char)
    (h : ∀ v, parse (selectSegment content) = Except.ok v → isMappingOrNone v = true) :
    isMappingOrNone (load_yaml_metadata parse path content).1 = true := by
  rw [load_yaml_metadata]
  cases hp : parse (selectSegment content) with
  | ok v => exact h v hp
  | error e => rfl

/-- Witness for C7 at a document whose segment parses to a mapping. -/
theorem c7_witness :
    isMappingOrNone (load_yaml_metadata parseYamlModel "rule.yml" "key: 1".toList).1
      = true :=
  c7_mapping_or_none parseYamlModel "rule.yml" "key: 1".toList (by
    intro v hv
    rw [selectSegment_of_few "key: 1".toList (by simp +decide [countDashes])] at hv
    have hpar : parseYamlModel "key: 1".toList =
        Except.ok (Val.dict [("key", Val.int 1)]) := rfl
    rw [hpar] at hv
    cases hv
    rfl)

/-- C8 (amended): on a parse failure the extractor returns `None` and logs
exactly one error record naming the offending document, and it never lets
the failure escape; but `None` is not returned *only* then — a segment
that parses successfully to the null value also yields `None`, with no
error logged (see the counterexample). -/
theorem c8_parse_failure (parse : List Char → Except String Val) (path : String)
    (content : List Char) :
    (∀ e, parse (selectSegment content) = Except.error e →
        load_yaml_metadata parse path content =
          (Val.none,
           [(LogLevel.error, "Error parsing YAML metadata in " ++ path ++ ": " ++ e)])) ∧
    (∀ v, parse (selectSegment content) = Except.ok v →
        load_yaml_metadata parse path content = (v, [])) := by
  constructor
  · intro e he
    rw [load_yaml_metadata, he]
  · intro v hv
    rw [load_yaml_metadata, hv]

/-- C8 counterexample: the empty document parses successfully (to the null
value), yet the extractor returns the sentinel `None` — with no parse
failure and no logged error — so `None` is not returned exactly on
malformed-syntax failures. -/
theorem c8_counterexample :
    parseYamlModel (selectSegment []) = Except.ok Val.none ∧
    load_yaml_metadata parseYamlModel "empty.yml" [] = (Val.none, []) := by
  have hsel : selectSegment ([] : List Char) = [] :=
    selectSegment_of_few [] (by simp [countDashes])
  constructor
  · rw [hsel]; rfl
  · rw [load_yaml_metadata, hsel]; rfl

/-- Witness for C8: a genuinely malformed document (a lone `[`) yields
`None` plus the error record naming the file, and an intact scalar
document is passed through with no log. -/
theorem c8_witness :
    load_yaml_metadata parseYamlModel "broken.yml" "[".toList =
      (Val.none,
       [(LogLevel.error,
         "Error parsing YAML metadata in broken.yml: could not parse the document")]) ∧
    load_yaml_metadata parseYamlModel "int.yml" "7".toList = (Val.int 7, []) := by
  constructor
  · refine (c8_parse_failure parseYamlModel "broken.yml" "[".toList).1
      "could not parse the document" ?_
    rw [selectSegment_of_few "[".toList (by simp +decide [countDashes])]
    rfl
  · refine (c8_parse_failure parseYamlModel "int.yml" "7".toList).2 (Val.int 7) ?_
    rw [selectSegment_of_few "7".toList (by simp +decide [countDashes])]
    rfl

/-- C9: every play returned by the mapper targets the fixed host group
`windows` with fact-gathering disabled, and every play the driver collects
for final output has a non-empty action sequence — an empty play is never
emitted. -/
theorem c9_play_invariants :
    (∀ (d : List (String × Val)) (p : Play) (lg : List LogEntry),
        convert_rule_to_ansible d = Except.ok (p, lg) →
        p.hosts = "windows" ∧ p.gather_facts = false) ∧
    (∀ (parse : List Char → Except String Val) (files : List (String × List Char))
        (p : Play), p ∈ convert_directory_plays parse files → p.tasks ≠ []) := by
  constructor
  · exact convert_ok_play_shape
  · intro parse files p hp
    rw [convert_directory_plays] at hp
    exact convert_directory_plays_aux parse files [] (by simp) p hp

/-- The document used to witness C9. -/
def c9exD : List (String × Val) :=
  [("implementations", Val.list [Val.dict [("automations",
     Val.list [Val.dict [("registry_key", Val.str "Sys"),
                         ("values", Val.dict [("Flag", Val.int 1)])]])]])]

/-- The play generated from `c9exD`. -/
def c9exP : Play :=
  { hosts := "windows", gather_facts := false
    tasks := [{ name := "Set Flag to 1", path := "HKLM:\\Sys",
                regName := "Flag", data := Val.int 1, ty := "dword" }] }

/-- Witness for C9: a concrete conversion whose play carries the fixed
header, and a one-file batch whose collected play has tasks. -/
theorem c9_witness :
    convert_rule_to_ansible c9exD = Except.ok (c9exP, []) ∧
    (c9exP.hosts = "windows" ∧ c9exP.gather_facts = false) ∧
    c9exP ∈ convert_directory_plays (fun _ => Except.ok (Val.dict c9exD))
        [("rules.yml", [])] ∧
    c9exP.tasks ≠ [] := by
  have hmem : c9exP ∈ convert_directory_plays (fun _ => Except.ok (Val.dict c9exD))
      [("rules.yml", [])] := by
    have hone : convert_directory_plays (fun _ => Except.ok (Val.dict c9exD))
        [("rules.yml", [])] = [c9exP] := rfl
    rw [hone]
    exact List.mem_singleton.mpr rfl
  exact ⟨rfl, c9_play_invariants.1 c9exD c9exP [] rfl, hmem,
         c9_play_invariants.2 (fun _ => Except.ok (Val.dict c9exD))
           [("rules.yml", [])] c9exP hmem⟩

/-- The duplicated document used to witness C10: two implementation
entries carrying the identical registry automation. -/
def c10exD : List (String × Val) :=
  [("implementations", Val.list
     [Val.dict [("automations", Val.list [Val.dict
        [("registry_key", Val.str "P"), ("values", Val.dict [("N", Val.int 1)])]])],
      Val.dict [("automations", Val.list [Val.dict
        [("registry_key", Val.str "P"), ("values", Val.dict [("N", Val.int 1)])]])]])]

/-- The one task both duplicated automations of `c10exD` generate. -/
def c10task : RegTask :=
  { name := "Set N to 1", path := "HKLM:\\P", regName := "N",
    data := Val.int 1, ty := "dword" }

/-- C10: the mapper performs no deduplication — a run of automation
entries contributes one action per (entry, value pair) occurrence, in
encounter order, with the total action list the concatenation of each
occurrence's actions; in particular a document that repeats the same
(registry path, value name) pair in two implementation entries yields the
two identical actions. -/
theorem c10_no_dedup :
    (∀ (st : ConvSt) (specs : List (String × List (String × Val))),
        (∀ s ∈ specs, s.1 ≠ "" ∧ s.2 ≠ []) →
        foldE processAutomation st
          (specs.map (fun s =>
            Val.dict [("registry_key", Val.str s.1), ("values", Val.dict s.2)])) =
          Except.ok
            { st with
              tasks := st.tasks ++ specs.flatMap (fun s =>
                s.2.map (fun kv => mkRegTask (Val.str s.1) kv.1 kv.2))
              tasksAdded := if specs.isEmpty then st.tasksAdded else true }) ∧
    convert_rule_to_ansible c10exD =
      Except.ok ({ hosts := "windows", gather_facts := false,
                   tasks := [c10task, c10task] }, []) := by
  constructor
  · intro st specs
    induction specs generalizing st with
    | nil => intro _; simp [foldE]
    | cons s specs ih =>
        intro h
        have hs := h s (List.mem_cons_self s specs)
        rw [List.map_cons,
            foldE_cons_ok _ (processAutomation_good st
              [("registry_key", Val.str s.1), ("values", Val.dict s.2)]
              (Val.str s.1) s.2 (by rfl)
              (by simp [pyTruthy, hs.1]) (by rfl) hs.2)]
        rw [ih _ (fun q hq => h q (List.mem_cons_of_mem s hq))]
        simp [List.flatMap_cons, List.append_assoc]
  · rfl

/-- Witness for C10: two identical automation specs generate two identical
tasks, appended one after the other. -/
theorem c10_witness :
    foldE processAutomation initSt
        ([("Q", [("M", Val.int 2)]), ("Q", [("M", Val.int 2)])].map (fun s =>
          Val.dict [("registry_key", Val.str s.1), ("values", Val.dict s.2)])) =
      Except.ok
        { tasks := [{ name := "Set M to 2", path := "HKLM:\\Q", regName := "M",
                      data := Val.int 2, ty := "dword" },
                    { name := "Set M to 2", path := "HKLM:\\Q", regName := "M",
                      data := Val.int 2, ty := "dword" }]
          log := []
          tasksAdded := true } := by
  have h := c10_no_dedup.1 initSt [("Q", [("M", Val.int 2)]), ("Q", [("M", Val.int 2)])]
    (by
      intro s hs
      rcases List.mem_cons.mp hs with rfl | hs2
      · exact ⟨by decide, by simp⟩
      · rcases List.mem_cons.mp hs2 with rfl | hs3
        · exact ⟨by decide, by simp⟩
        · exact absurd hs3 (List.not_mem_nil s))
  rw [h]
  rfl
